import Mathlib

/-!
Shallow embedding of `src/src/modules/orders/services/CreateOrderService.ts`
(the order-creation reconciliation service of SamuelHiroyuki/gostack-node-d4).

Quantities are JavaScript numbers used as integers; we model them as `Int`
(requested quantities arrive from the caller and may be non-positive — the
service performs no positivity check).  Prices are only copied, never
computed with; we model them as `ℚ`.  Collaborator repositories
(`CustomersRepository.findById`, `ProductsRepository.findAllById`,
`ProductsRepository.updateQuantity`, `OrdersRepository.create`) are not part
of `src/`; the reads are modelled from the spec as pure lookups over an input
customer list and catalog, and the writes are recorded as an effect trace so
that "no side effects on failure" is a statement about the model.
-/

/-- A requested order line: the `IProduct` input interface of the service
(`{ id, quantity }`). -/
structure IProduct where
  id : String
  quantity : Int
deriving DecidableEq

/-- The catalog `Product` entity.  `src/` only shows the fields the service
touches (`id`, `quantity`, `price`); the remaining attributes of the entity
(modelled from the data model of the spec, collapsed into `name`) are carried by
the object spread `{ ...matchProduct, quantity: ... }`. -/
structure Product where
  id : String
  quantity : Int
  price : ℚ
  name : String
deriving DecidableEq

/-- A customer record; the service only checks existence. -/
structure Customer where
  id : String
deriving DecidableEq

/-- An element of `sanitizedProducts`: `{ product_id, quantity, price }`. -/
structure SanitizedProduct where
  product_id : String
  quantity : Int
  price : ℚ
deriving DecidableEq

/-- The order returned on success: the customer reference plus the sanitized
lines (`ordersRepository.create({ customer, products: sanitizedProducts })`). -/
structure Order where
  customer : Customer
  products : List SanitizedProduct
deriving DecidableEq

/-- The accumulator of the `products.reduce` call: the `IValidation`
interface of the service. -/
structure FirstCount where
  first : Option String
  quantity : Nat
deriving DecidableEq

/-- The four-field accumulator (`IValidation`). -/
structure IValidation where
  nonExistentProducts : FirstCount
  invalidQuantityProducts : FirstCount
  sanitizedProducts : List SanitizedProduct
  productsToUpdate : List Product
deriving DecidableEq

/-- The initial accumulator passed to `reduce`. -/
def initialValidation : IValidation where
  nonExistentProducts := { first := none, quantity := 0 }
  invalidQuantityProducts := { first := none, quantity := 0 }
  sanitizedProducts := []
  productsToUpdate := []

/-- The errors the service throws (`AppError`), tagged by kind;
`message` below renders the exact thrown message strings. -/
inductive OrderError where
  | customerNotFound
  | emptyOrder
  | productNotFound (first : String) (quantity : Nat)
  | insufficientStock (first : String) (quantity : Nat)
deriving DecidableEq

/-- The exact `AppError` message strings thrown by the service
(apostrophes written as `\x27`). -/
def OrderError.message : OrderError → String
  | .customerNotFound => "Customer not found."
  | .emptyOrder => "Less than one product to create an order."
  | .productNotFound f q =>
      s!"Could not find product_id \x27{f}\x27" ++
        (if q > 1 then s!" and others ({q - 1}) products." else ".")
  | .insufficientStock f q =>
      s!"The given quantity for the product \x27{f}\x27 is not available." ++
        (if q > 1 then
          s!" Another ({q - 1}) products also exceed the quantity available."
        else "")

/-- Write calls issued to the collaborators, in order:
`ordersRepository.create` and `productsRepository.updateQuantity`. -/
inductive Effect where
  | create (customer : Customer) (products : List SanitizedProduct)
  | updateQuantity (products : List Product)
deriving DecidableEq

/-- Modelled from the spec: `CustomerLookup.findById(id) -> Customer | absent`,
a lookup over the customer store. -/
def findById (customers : List Customer) (id : String) : Option Customer :=
  customers.find? (fun c => c.id == id)

/-- Modelled from the spec: `ProductCatalog.findAllById(ids) -> sequence of
Product (only existing ones)` — the catalog entries whose id occurs among the
requested lines (one batch call; the service passes the request lines). -/
def findAllById (catalog : List Product) (products : List IProduct) : List Product :=
  catalog.filter (fun p => products.any (fun r => r.id == p.id))

/-- Modelled from the spec: `ProductCatalog.updateQuantities` applies the
computed updates in sequence, each setting the stored quantity of every
catalog entry with a matching id (last write wins for duplicate ids). -/
def applyUpdates (catalog : List Product) (updates : List Product) : List Product :=
  updates.foldl
    (fun cat u =>
      cat.map (fun p => if p.id == u.id then { p with quantity := u.quantity } else p))
    catalog

/-- JavaScript truthiness of the `null | string` fields `first`:
`null` and the empty string are falsy. -/
def truthy : Option String → Bool
  | none => false
  | some s => s ≠ ""

/-- One step of the `products.reduce((acc, product) => ...)` body:
find the matching catalog entry; missing ids update `nonExistentProducts`,
over-quantity lines update `invalidQuantityProducts`, and accepted lines are
pushed onto `productsToUpdate` (quantity recomputed from the fetched entry)
and `sanitizedProducts` (price copied from the fetched entry). -/
def validateStep (existingProducts : List Product) (acc : IValidation)
    (product : IProduct) : IValidation :=
  match existingProducts.find? (fun p => p.id == product.id) with
  | some matchProduct =>
      if product.quantity > matchProduct.quantity then
        { acc with invalidQuantityProducts :=
            { first := some product.id
              quantity := acc.invalidQuantityProducts.quantity + 1 } }
      else
        { acc with
            productsToUpdate := acc.productsToUpdate ++
              [{ matchProduct with quantity := matchProduct.quantity - product.quantity }]
            sanitizedProducts := acc.sanitizedProducts ++
              [{ product_id := product.id
                 quantity := product.quantity
                 price := matchProduct.price }] }
  | none =>
      { acc with nonExistentProducts :=
          { first := some product.id
            quantity := acc.nonExistentProducts.quantity + 1 } }

/-- The whole `products.reduce(..., initial)` call. -/
def validation (existingProducts : List Product) (products : List IProduct) :
    IValidation :=
  products.foldl (validateStep existingProducts) initialValidation

/-- `CreateOrderService.execute({ customer_id, products })`, with the
collaborator reads supplied as a customer list and a catalog, returning the
thrown error or the created order, paired with the trace of write calls. -/
def execute (customers : List Customer) (catalog : List Product)
    (customer_id : String) (products : List IProduct) :
    Except OrderError Order × List Effect :=
  match findById customers customer_id with
  | none => (Except.error OrderError.customerNotFound, [])
  | some customer =>
      if products.isEmpty then
        (Except.error OrderError.emptyOrder, [])
      else
        let existingProducts := findAllById catalog products
        let v := validation existingProducts products
        if truthy v.nonExistentProducts.first then
          (Except.error (OrderError.productNotFound
            (v.nonExistentProducts.first.getD "") v.nonExistentProducts.quantity), [])
        else if truthy v.invalidQuantityProducts.first then
          (Except.error (OrderError.insufficientStock
            (v.invalidQuantityProducts.first.getD "") v.invalidQuantityProducts.quantity), [])
        else
          let order : Order := { customer := customer, products := v.sanitizedProducts }
          (Except.ok order,
           [Effect.create customer v.sanitizedProducts,
            Effect.updateQuantity v.productsToUpdate])

deriving instance DecidableEq for Except

/-- The matching catalog entry of a requested line:
`existingProducts.find(p => p.id === product.id)`. -/
def matched (existingProducts : List Product) (l : IProduct) : Option Product :=
  existingProducts.find? (fun p => p.id == l.id)

/-- A line passes validation when it matches a catalog entry whose quantity
is not exceeded (the complement of the two failure branches of the reduce). -/
def accepted (existingProducts : List Product) (l : IProduct) : Bool :=
  match matched existingProducts l with
  | some p => !(l.quantity > p.quantity)
  | none => false

/-- The order line an accepted request line contributes. -/
def sanitize (existingProducts : List Product) (l : IProduct) :
    Option SanitizedProduct :=
  (matched existingProducts l).map fun p =>
    { product_id := l.id, quantity := l.quantity, price := p.price }

/-- The stock update an accepted request line contributes: the fetched entry
with its quantity reduced by the requested amount. -/
def stockUpdate (existingProducts : List Product) (l : IProduct) :
    Option Product :=
  (matched existingProducts l).map fun p =>
    { p with quantity := p.quantity - l.quantity }

/-! ### Case lemmas for one step of the reduce -/

lemma validateStep_matched_none (eps : List Product) (acc : IValidation)
    (l : IProduct) (h : matched eps l = none) :
    validateStep eps acc l =
      { acc with nonExistentProducts :=
          { first := some l.id, quantity := acc.nonExistentProducts.quantity + 1 } } := by
  unfold matched at h
  unfold validateStep
  rw [h]

lemma validateStep_matched_over (eps : List Product) (acc : IValidation)
    (l : IProduct) (p : Product) (h : matched eps l = some p)
    (hq : l.quantity > p.quantity) :
    validateStep eps acc l =
      { acc with invalidQuantityProducts :=
          { first := some l.id, quantity := acc.invalidQuantityProducts.quantity + 1 } } := by
  unfold matched at h
  unfold validateStep
  rw [h]
  simp [hq]

lemma validateStep_matched_ok (eps : List Product) (acc : IValidation)
    (l : IProduct) (p : Product) (h : matched eps l = some p)
    (hq : ¬ l.quantity > p.quantity) :
    validateStep eps acc l =
      { acc with
          productsToUpdate := acc.productsToUpdate ++
            [{ p with quantity := p.quantity - l.quantity }]
          sanitizedProducts := acc.sanitizedProducts ++
            [{ product_id := l.id, quantity := l.quantity, price := p.price }] } := by
  unfold matched at h
  unfold validateStep
  rw [h]
  simp [hq]

lemma accepted_iff (eps : List Product) (l : IProduct) :
    accepted eps l = true ↔
      ∃ p, matched eps l = some p ∧ ¬ l.quantity > p.quantity := by
  unfold accepted
  cases hm : matched eps l with
  | none => simp
  | some p => simp

/-! ### The reduce on a fully accepted request -/

lemma validation_foldl_all_accepted (eps : List Product) (products : List IProduct) :
    ∀ acc : IValidation, (∀ l ∈ products, accepted eps l = true) →
      products.foldl (validateStep eps) acc =
        { acc with
            sanitizedProducts := acc.sanitizedProducts ++ products.filterMap (sanitize eps)
            productsToUpdate := acc.productsToUpdate ++ products.filterMap (stockUpdate eps) } := by
  induction products with
  | nil => intro acc _; simp
  | cons l ls ih =>
      intro acc h
      obtain ⟨p, hm, hq⟩ :=
        (accepted_iff eps l).mp (h l (List.mem_cons_self l ls))
      rw [List.foldl_cons, validateStep_matched_ok eps acc l p hm hq,
        ih _ (fun x hx => h x (List.mem_cons_of_mem l hx))]
      simp [sanitize, stockUpdate, hm, List.append_assoc]

lemma validation_all_accepted (eps : List Product) (products : List IProduct)
    (h : ∀ l ∈ products, accepted eps l = true) :
    validation eps products =
      { initialValidation with
          sanitizedProducts := products.filterMap (sanitize eps)
          productsToUpdate := products.filterMap (stockUpdate eps) } := by
  unfold validation
  rw [validation_foldl_all_accepted eps products initialValidation h]
  simp [initialValidation]

/-- C1: On a successful call (the customer is found, the request is
non-empty, and every line matches a catalog entry fetched at call time with
quantity within stock), `execute` returns the order built from exactly the
per-line sanitized records — each carrying the price of the matched entry — and
issues exactly one `create` with those lines followed by one
`updateQuantity` whose records carry the fetched catalog quantity minus the
requested quantity. -/
theorem execute_success (customers : List Customer) (catalog : List Product)
    (customer_id : String) (products : List IProduct) (customer : Customer)
    (hc : findById customers customer_id = some customer)
    (hne : products ≠ [])
    (hall : ∀ l ∈ products, accepted (findAllById catalog products) l = true) :
    execute customers catalog customer_id products =
      (Except.ok { customer := customer
                   products := products.filterMap (sanitize (findAllById catalog products)) },
       [Effect.create customer (products.filterMap (sanitize (findAllById catalog products))),
        Effect.updateQuantity (products.filterMap (stockUpdate (findAllById catalog products)))]) := by
  have hne' : products.isEmpty = false := by
    cases products with
    | nil => exact absurd rfl hne
    | cons a as => rfl
  have hv := validation_all_accepted (findAllById catalog products) products hall
  simp [execute, hc, hne', hv, initialValidation, truthy]

/-- C1 witness: the concrete scenario of the spec — customer `C1`, catalog
`P1` qty=5 price=10, `P2` qty=2 price=3, request `[{P1,3},{P2,2}]` succeeds
with order lines `[{P1,3,10},{P2,2,3}]` and stock updates `P1:2, P2:0`. -/
theorem execute_success_w :
    findById [⟨"C1"⟩] "C1" = some ⟨"C1"⟩ ∧
    ([⟨"P1", 3⟩, ⟨"P2", 2⟩] : List IProduct) ≠ [] ∧
    (∀ l ∈ ([⟨"P1", 3⟩, ⟨"P2", 2⟩] : List IProduct),
      accepted (findAllById [⟨"P1", 5, 10, "a"⟩, ⟨"P2", 2, 3, "b"⟩]
        [⟨"P1", 3⟩, ⟨"P2", 2⟩]) l = true) ∧
    execute [⟨"C1"⟩] [⟨"P1", 5, 10, "a"⟩, ⟨"P2", 2, 3, "b"⟩] "C1"
        [⟨"P1", 3⟩, ⟨"P2", 2⟩] =
      (Except.ok ⟨⟨"C1"⟩, [⟨"P1", 3, 10⟩, ⟨"P2", 2, 3⟩]⟩,
       [Effect.create ⟨"C1"⟩ [⟨"P1", 3, 10⟩, ⟨"P2", 2, 3⟩],
        Effect.updateQuantity [⟨"P1", 2, 10, "a"⟩, ⟨"P2", 0, 3, "b"⟩]]) :=
  ⟨by decide, by decide, by decide,
    (execute_success [⟨"C1"⟩] [⟨"P1", 5, 10, "a"⟩, ⟨"P2", 2, 3, "b"⟩] "C1"
      [⟨"P1", 3⟩, ⟨"P2", 2⟩] ⟨"C1"⟩ (by decide) (by decide) (by decide)).trans
      (by decide)⟩

/-- C2: whenever `execute` fails with any error, its write trace is empty —
neither `ordersRepository.create` nor `productsRepository.updateQuantity` is
called on any failure path. -/
theorem execute_failure_no_writes (customers : List Customer)
    (catalog : List Product) (customer_id : String) (products : List IProduct)
    (e : OrderError)
    (h : (execute customers catalog customer_id products).1 = Except.error e) :
    (execute customers catalog customer_id products).2 = [] := by
  cases hf : findById customers customer_id with
  | none => simp [execute, hf]
  | some customer =>
      cases hemp : products.isEmpty with
      | true => simp [execute, hf, hemp]
      | false =>
          cases h1 : truthy (validation (findAllById catalog products)
              products).nonExistentProducts.first with
          | true => simp [execute, hf, hemp, h1]
          | false =>
              cases h2 : truthy (validation (findAllById catalog products)
                  products).invalidQuantityProducts.first with
              | true => simp [execute, hf, hemp, h1, h2]
              | false => simp [execute, hf, hemp, h1, h2] at h

/-- C2 witness: an unknown customer makes `execute` fail, and the write
trace of that call is empty. -/
theorem execute_failure_no_writes_w :
    (execute [] [] "C1" [⟨"P1", 1⟩]).1 = Except.error OrderError.customerNotFound ∧
    (execute [] [] "C1" [⟨"P1", 1⟩]).2 = [] :=
  ⟨by decide,
   execute_failure_no_writes [] [] "C1" [⟨"P1", 1⟩]
     OrderError.customerNotFound (by decide)⟩

/-- C7: an unknown customer id fails with `CustomerNotFound` (before the
emptiness check: this holds for every request, the empty one included) with
no write call; a known customer with an empty request fails with
`EmptyOrder` whatever the catalog holds. -/
theorem customer_then_empty_check (customers : List Customer)
    (catalog : List Product) (customer_id : String) (products : List IProduct) :
    (findById customers customer_id = none →
      execute customers catalog customer_id products =
        (Except.error OrderError.customerNotFound, [])) ∧
    (∀ customer, findById customers customer_id = some customer →
      execute customers catalog customer_id [] =
        (Except.error OrderError.emptyOrder, [])) := by
  constructor
  · intro h
    unfold execute
    rw [h]
  · intro customer h
    unfold execute
    rw [h]
    rfl

/-- C7 witness: unknown customer `C2` fails with `CustomerNotFound` (also on
an empty request); known customer `C1` with no lines fails with
`EmptyOrder`. -/
theorem customer_then_empty_check_w :
    execute [⟨"C1"⟩] [⟨"P1", 5, 10, "a"⟩] "C2" [] =
      (Except.error OrderError.customerNotFound, []) ∧
    execute [⟨"C1"⟩] [⟨"P1", 5, 10, "a"⟩] "C1" [] =
      (Except.error OrderError.emptyOrder, []) :=
  ⟨(customer_then_empty_check [⟨"C1"⟩] [⟨"P1", 5, 10, "a"⟩] "C2" []).1 (by decide),
   (customer_then_empty_check [⟨"C1"⟩] [⟨"P1", 5, 10, "a"⟩] "C1" []).2 ⟨"C1"⟩ (by decide)⟩

/-- C3: the reduce overwrites `nonExistentProducts.first` on every missing
line, so with two missing products `A` then `B` the thrown message names `B`
— the last missing id in request order, not the first — while the
"and others" count (total missing − 1 = 1) is as described; the
`InsufficientStock` message has the same last-id-plus-count behaviour (two
over-quantity lines `A` then `B` report `B`). -/
theorem productNotFound_reports_last_missing :
    execute [⟨"C1"⟩] [] "C1" [⟨"A", 1⟩, ⟨"B", 1⟩] =
      (Except.error (OrderError.productNotFound "B" 2), []) ∧
    (OrderError.productNotFound "B" 2).message =
      "Could not find product_id \x27B\x27 and others (1) products." ∧
    (validation (findAllById [] [⟨"A", 1⟩, ⟨"B", 1⟩])
      [⟨"A", 1⟩, ⟨"B", 1⟩]).nonExistentProducts =
      { first := some "B", quantity := 2 } ∧
    execute [⟨"C1"⟩] [⟨"A", 1, 10, "a"⟩, ⟨"B", 1, 3, "b"⟩] "C1"
        [⟨"A", 5⟩, ⟨"B", 5⟩] =
      (Except.error (OrderError.insufficientStock "B" 2), []) ∧
    (OrderError.insufficientStock "B" 2).message =
      "The given quantity for the product \x27B\x27 is not available." ++
        " Another (1) products also exceed the quantity available." := by
  decide

/-- C4: existence failures do NOT always win: a missing product whose id is
the empty string leaves `nonExistentProducts.first = some ""`, which the
JavaScript truthiness test `if (nonExistentProducts.first)` of the service
treats as falsy, so the over-quantity line `P1` (requested 5, stock 1) makes
the call fail with `InsufficientStock` instead of `ProductNotFound`. -/
theorem insufficientStock_wins_on_empty_missing_id :
    execute [⟨"C1"⟩] [⟨"P1", 1, 10, "a"⟩] "C1" [⟨"", 1⟩, ⟨"P1", 5⟩] =
      (Except.error (OrderError.insufficientStock "P1" 1), []) ∧
    (validation (findAllById [⟨"P1", 1, 10, "a"⟩] [⟨"", 1⟩, ⟨"P1", 5⟩])
      [⟨"", 1⟩, ⟨"P1", 5⟩]).nonExistentProducts =
      { first := some "", quantity := 1 } := by
  decide

/-- C5: each request line is classified into exactly one of three outcomes,
catalog presence first: a line with no matching catalog entry only bumps the
non-existent tracker (its quantity is never compared); a matched line whose
requested quantity exceeds the catalog quantity only bumps the
insufficient-stock tracker; otherwise — including requested quantity exactly
equal to stock — the line is appended to both `sanitizedProducts` and
`productsToUpdate`, all other accumulator fields untouched. -/
theorem validateStep_classification (eps : List Product) (acc : IValidation)
    (l : IProduct) :
    (matched eps l = none →
      validateStep eps acc l =
        { acc with nonExistentProducts :=
            { first := some l.id, quantity := acc.nonExistentProducts.quantity + 1 } }) ∧
    (∀ p, matched eps l = some p → l.quantity > p.quantity →
      validateStep eps acc l =
        { acc with invalidQuantityProducts :=
            { first := some l.id, quantity := acc.invalidQuantityProducts.quantity + 1 } }) ∧
    (∀ p, matched eps l = some p → l.quantity ≤ p.quantity →
      validateStep eps acc l =
        { acc with
            productsToUpdate := acc.productsToUpdate ++
              [{ p with quantity := p.quantity - l.quantity }]
            sanitizedProducts := acc.sanitizedProducts ++
              [{ product_id := l.id, quantity := l.quantity, price := p.price }] }) :=
  ⟨fun h => validateStep_matched_none eps acc l h,
   fun p h hq => validateStep_matched_over eps acc l p h hq,
   fun p h hq => validateStep_matched_ok eps acc l p h (not_lt.mpr hq)⟩

/-- C5 witness: against catalog entry `P1` qty=5, a line for unknown `Q` is
counted non-existent only; `P1` requested 6 is counted insufficient only;
`P1` requested exactly 5 (quantity equal to stock) is accepted into both
output lists. -/
theorem validateStep_classification_w :
    validateStep [⟨"P1", 5, 10, "a"⟩] initialValidation ⟨"Q", 1⟩ =
      { initialValidation with
          nonExistentProducts := { first := some "Q", quantity := 1 } } ∧
    validateStep [⟨"P1", 5, 10, "a"⟩] initialValidation ⟨"P1", 6⟩ =
      { initialValidation with
          invalidQuantityProducts := { first := some "P1", quantity := 1 } } ∧
    validateStep [⟨"P1", 5, 10, "a"⟩] initialValidation ⟨"P1", 5⟩ =
      { initialValidation with
          productsToUpdate := [⟨"P1", 0, 10, "a"⟩]
          sanitizedProducts := [⟨"P1", 5, 10⟩] } := by
  refine ⟨?_, ?_, ?_⟩
  · exact ((validateStep_classification [⟨"P1", 5, 10, "a"⟩] initialValidation
      ⟨"Q", 1⟩).1 (by decide)).trans (by decide)
  · exact ((validateStep_classification [⟨"P1", 5, 10, "a"⟩] initialValidation
      ⟨"P1", 6⟩).2.1 ⟨"P1", 5, 10, "a"⟩ (by decide) (by decide)).trans (by decide)
  · exact ((validateStep_classification [⟨"P1", 5, 10, "a"⟩] initialValidation
      ⟨"P1", 5⟩).2.2 ⟨"P1", 5, 10, "a"⟩ (by decide) (by decide)).trans (by decide)

/-- C6: two accepted lines for the same product each contribute a stock
update recomputed from the originally fetched catalog quantity — not from a
running total — and applying the bulk update leaves the net effect of the
later occurrence only (it supersedes the earlier computed decrement). -/
theorem duplicate_lines_not_cumulative (eps : List Product) (l₁ l₂ : IProduct)
    (p : Product) (hid : l₂.id = l₁.id)
    (hm : matched eps l₁ = some p)
    (h₁ : l₁.quantity ≤ p.quantity) (h₂ : l₂.quantity ≤ p.quantity) :
    (validation eps [l₁, l₂]).productsToUpdate =
      [{ p with quantity := p.quantity - l₁.quantity },
       { p with quantity := p.quantity - l₂.quantity }] ∧
    ∀ catalog, applyUpdates catalog (validation eps [l₁, l₂]).productsToUpdate =
      applyUpdates catalog [{ p with quantity := p.quantity - l₂.quantity }] := by
  have hm₂ : matched eps l₂ = some p := by
    unfold matched at hm ⊢
    rw [hid]
    exact hm
  have step : ∀ (acc : IValidation) (l : IProduct), matched eps l = some p →
      l.quantity ≤ p.quantity →
      (validateStep eps acc l).productsToUpdate =
        acc.productsToUpdate ++ [{ p with quantity := p.quantity - l.quantity }] :=
    fun acc l hml hql => by
      rw [validateStep_matched_ok eps acc l p hml (not_lt.mpr hql)]
  have hupd : (validation eps [l₁, l₂]).productsToUpdate =
      [{ p with quantity := p.quantity - l₁.quantity },
       { p with quantity := p.quantity - l₂.quantity }] := by
    unfold validation
    rw [List.foldl_cons, List.foldl_cons, List.foldl_nil,
      step _ l₂ hm₂ h₂, step _ l₁ hm h₁]
    simp [initialValidation]
  refine ⟨hupd, fun catalog => ?_⟩
  rw [hupd]
  unfold applyUpdates
  simp only [List.foldl_cons, List.foldl_nil]
  rw [List.map_map]
  congr 1
  funext x
  simp only [Function.comp]
  by_cases hx : (x.id == p.id) = true
  · simp [hx]
  · simp [hx]

/-- C6 witness: catalog entry `P1` qty=5; request lines `{P1,2}` then
`{P1,1}` yield updates `[P1:3, P1:4]` (each from the original 5), and the
bulk update leaves `P1` at 4 — the value of the later line, not 5−2−1=2. -/
theorem duplicate_lines_not_cumulative_w :
    (validation [⟨"P1", 5, 10, "a"⟩] [⟨"P1", 2⟩, ⟨"P1", 1⟩]).productsToUpdate =
      [⟨"P1", 3, 10, "a"⟩, ⟨"P1", 4, 10, "a"⟩] ∧
    applyUpdates [⟨"P1", 5, 10, "a"⟩]
        (validation [⟨"P1", 5, 10, "a"⟩] [⟨"P1", 2⟩, ⟨"P1", 1⟩]).productsToUpdate =
      [⟨"P1", 4, 10, "a"⟩] := by
  have h := duplicate_lines_not_cumulative [⟨"P1", 5, 10, "a"⟩] ⟨"P1", 2⟩ ⟨"P1", 1⟩
    ⟨"P1", 5, 10, "a"⟩ rfl (by decide) (by decide) (by decide)
  exact ⟨h.1.trans (by decide),
    (h.2 [⟨"P1", 5, 10, "a"⟩]).trans (by decide)⟩

/-! ### Non-negativity of computed stock updates -/

lemma foldl_updates_nonneg (eps : List Product) (products : List IProduct) :
    ∀ acc : IValidation, (∀ u ∈ acc.productsToUpdate, 0 ≤ u.quantity) →
      ∀ u ∈ (products.foldl (validateStep eps) acc).productsToUpdate,
        0 ≤ u.quantity := by
  induction products with
  | nil => intro acc hacc; simpa using hacc
  | cons l ls ih =>
      intro acc hacc
      rw [List.foldl_cons]
      apply ih
      cases hm : matched eps l with
      | none => rw [validateStep_matched_none eps acc l hm]; simpa using hacc
      | some p =>
          by_cases hq : l.quantity > p.quantity
          · rw [validateStep_matched_over eps acc l p hm hq]; simpa using hacc
          · rw [validateStep_matched_ok eps acc l p hm hq]
            intro u hu
            simp at hu
            rcases hu with hu | hu
            · exact hacc u hu
            · rw [hu]; simp; omega

lemma applyUpdates_nonneg (updates : List Product) :
    ∀ catalog : List Product, (∀ p ∈ catalog, 0 ≤ p.quantity) →
      (∀ u ∈ updates, 0 ≤ u.quantity) →
      ∀ q ∈ applyUpdates catalog updates, 0 ≤ q.quantity := by
  induction updates with
  | nil =>
      intro catalog hcat _ q hq
      unfold applyUpdates at hq
      exact hcat q (by simpa using hq)
  | cons u us ih =>
      intro catalog hcat hupd q hq
      have hq' : q ∈ applyUpdates (catalog.map fun p =>
          if p.id == u.id then { p with quantity := u.quantity } else p) us := hq
      refine ih _ ?_ (fun v hv => hupd v (List.mem_cons_of_mem u hv)) q hq'
      intro x hx
      simp only [List.mem_map] at hx
      obtain ⟨y, hy, rfl⟩ := hx
      by_cases hc : (y.id == u.id) = true
      · rw [if_pos hc]
        exact hupd u (List.mem_cons_self u us)
      · rw [if_neg hc]
        exact hcat y hy

/-- C8: when every catalog quantity is non-negative, every record passed to
the bulk quantity update by a successful `execute` has a non-negative
quantity (an accepted line satisfies requested ≤ stock, so stock − requested
≥ 0), and applying those updates leaves every catalog quantity
non-negative. -/
theorem execute_stock_updates_nonneg (customers : List Customer)
    (catalog : List Product) (customer_id : String) (products : List IProduct)
    (pu : List Product)
    (hcat : ∀ p ∈ catalog, 0 ≤ p.quantity)
    (hmem : Effect.updateQuantity pu ∈ (execute customers catalog customer_id products).2) :
    (∀ u ∈ pu, 0 ≤ u.quantity) ∧ ∀ q ∈ applyUpdates catalog pu, 0 ≤ q.quantity := by
  have hpu : pu = (validation (findAllById catalog products) products).productsToUpdate := by
    cases hf : findById customers customer_id with
    | none => simp [execute, hf] at hmem
    | some customer =>
        cases hemp : products.isEmpty with
        | true => simp [execute, hf, hemp] at hmem
        | false =>
            cases h1 : truthy (validation (findAllById catalog products)
                products).nonExistentProducts.first with
            | true => simp [execute, hf, hemp, h1] at hmem
            | false =>
                cases h2 : truthy (validation (findAllById catalog products)
                    products).invalidQuantityProducts.first with
                | true => simp [execute, hf, hemp, h1, h2] at hmem
                | false => simpa [execute, hf, hemp, h1, h2] using hmem
  have hnn : ∀ u ∈ pu, 0 ≤ u.quantity := by
    rw [hpu]
    exact foldl_updates_nonneg (findAllById catalog products) products
      initialValidation (by simp [initialValidation])
  exact ⟨hnn, applyUpdates_nonneg pu catalog hcat hnn⟩

/-- C8 witness: catalog `P1` qty=5 (non-negative), request `{P1,2}`: the
update issued is `P1:3` with non-negative quantity, and the updated catalog
stays non-negative. -/
theorem execute_stock_updates_nonneg_w :
    (∀ p ∈ ([⟨"P1", 5, 10, "a"⟩] : List Product), 0 ≤ p.quantity) ∧
    Effect.updateQuantity [⟨"P1", 3, 10, "a"⟩] ∈
      (execute [⟨"C1"⟩] [⟨"P1", 5, 10, "a"⟩] "C1" [⟨"P1", 2⟩]).2 ∧
    ((∀ u ∈ ([⟨"P1", 3, 10, "a"⟩] : List Product), 0 ≤ u.quantity) ∧
      ∀ q ∈ applyUpdates [⟨"P1", 5, 10, "a"⟩] [⟨"P1", 3, 10, "a"⟩], 0 ≤ q.quantity) :=
  ⟨by decide, by decide,
   execute_stock_updates_nonneg [⟨"C1"⟩] [⟨"P1", 5, 10, "a"⟩] "C1" [⟨"P1", 2⟩]
     [⟨"P1", 3, 10, "a"⟩] (by decide) (by decide)⟩

/-- C9 counterexample: a zero-quantity line for existing `P1` (stock 5) is
NOT classified by the insufficient-stock check — the call succeeds, the line
is accepted into the order, and the update keeps the full stock of 5;
the claim would require an `InsufficientStock` failure here. -/
theorem nonpositive_quantity_cex :
    execute [⟨"C1"⟩] [⟨"P1", 5, 10, "a"⟩] "C1" [⟨"P1", 0⟩] =
      (Except.ok ⟨⟨"C1"⟩, [⟨"P1", 0, 10⟩]⟩,
       [Effect.create ⟨"C1"⟩ [⟨"P1", 0, 10⟩],
        Effect.updateQuantity [⟨"P1", 5, 10, "a"⟩]]) := by
  decide

/-- C9 amended: the service never re-validates quantity positivity, and a
zero or negative requested quantity against an existing product with
non-negative stock passes the quantity check `quantity > stock` and is
ACCEPTED into both output lists; its computed update, stock − requested, is
at least the original stock (a negative request inflates stock). -/
theorem nonpositive_quantity_accepted (eps : List Product) (acc : IValidation)
    (l : IProduct) (p : Product)
    (hm : matched eps l = some p) (hq : l.quantity ≤ 0) (hp : 0 ≤ p.quantity) :
    validateStep eps acc l =
      { acc with
          productsToUpdate := acc.productsToUpdate ++
            [{ p with quantity := p.quantity - l.quantity }]
          sanitizedProducts := acc.sanitizedProducts ++
            [{ product_id := l.id, quantity := l.quantity, price := p.price }] } ∧
    p.quantity ≤ p.quantity - l.quantity :=
  ⟨validateStep_matched_ok eps acc l p hm (by omega), by omega⟩

/-- C9 amended witness: requested quantity −1 for `P1` (stock 5) is accepted
and its computed update quantity is 6 ≥ 5. -/
theorem nonpositive_quantity_accepted_w :
    validateStep [⟨"P1", 5, 10, "a"⟩] initialValidation ⟨"P1", -1⟩ =
      { initialValidation with
          productsToUpdate := [⟨"P1", 6, 10, "a"⟩]
          sanitizedProducts := [⟨"P1", -1, 10⟩] } ∧
    (5 : Int) ≤ 6 := by
  have h := nonpositive_quantity_accepted [⟨"P1", 5, 10, "a"⟩] initialValidation
    ⟨"P1", -1⟩ ⟨"P1", 5, 10, "a"⟩ (by decide) (by decide) (by decide)
  exact ⟨h.1.trans (by decide), by decide⟩

/-- C10: the stock-update record appended for an accepted line is exactly
the matched catalog entry with only its quantity replaced — its id, price,
and remaining attributes (`name`) are carried over unchanged into the list
later passed to the bulk quantity update. -/
theorem stock_update_preserves_other_fields (eps : List Product)
    (acc : IValidation) (l : IProduct) (p : Product)
    (hm : matched eps l = some p) (hq : ¬ l.quantity > p.quantity) :
    (validateStep eps acc l).productsToUpdate =
      acc.productsToUpdate ++ [{ p with quantity := p.quantity - l.quantity }] ∧
    ({ p with quantity := p.quantity - l.quantity } : Product).id = p.id ∧
    ({ p with quantity := p.quantity - l.quantity } : Product).price = p.price ∧
    ({ p with quantity := p.quantity - l.quantity } : Product).name = p.name := by
  refine ⟨?_, rfl, rfl, rfl⟩
  rw [validateStep_matched_ok eps acc l p hm hq]

/-- C10 witness: the update for `{P1,2}` against catalog entry
`P1` qty=5 price=10 name="a" is `⟨P1, 3, 10, "a"⟩`: quantity recomputed,
every other field identical. -/
theorem stock_update_preserves_other_fields_w :
    (validateStep [⟨"P1", 5, 10, "a"⟩] initialValidation ⟨"P1", 2⟩).productsToUpdate =
      [⟨"P1", 3, 10, "a"⟩] ∧
    (⟨"P1", 3, 10, "a"⟩ : Product).id = "P1" ∧
    (⟨"P1", 3, 10, "a"⟩ : Product).price = 10 ∧
    (⟨"P1", 3, 10, "a"⟩ : Product).name = "a" := by
  have h := stock_update_preserves_other_fields [⟨"P1", 5, 10, "a"⟩]
    initialValidation ⟨"P1", 2⟩ ⟨"P1", 5, 10, "a"⟩ (by decide) (by decide)
  exact ⟨h.1.trans (by decide), by decide, by decide, by decide⟩

